import Mathlib

/-!
Verification of the pitch-deck-generator repository.

This file gives a shallow embedding of the code that the claims are about:

* `src/src/services/media/mediaGenerator.js` — `pollStatus`,
  `executeModelRequest` (the Fal.ai invocation layer), and the
  script-generator half of the file — `generateBrandResearch`'s JSON
  extraction ladder and `generateScriptContent`'s parse/validate step;
* `src/src/services/ai/mediaPromptGenerator.mcp.js` — `generateMediaPrompts`;
* `src/src/index.js` — the `/generate/research` and `/generate/script`
  Express handlers (session store, research gate, asset caps, response
  metadata).

External collaborators (the Gemini HTTP call, `JSON.parse`, `fal.request`,
`fal.subscribe`, the status endpoint, `generateImage`/`generateVideo` as
invoked by the handler, `saveAssetsToDrive`, wall-clock time) are modelled
as explicit parameters; everything the repository's own code does with
their results is translated statement by statement.

JavaScript values that flow through the code are modelled by the `Json`
inductive below.  JS `undefined` is modelled by `Option.none` at property
access sites.  JS number semantics are simplified to `Int` — no claim
depends on numeric edge cases.
-/

/-- Model of a JavaScript/JSON value as it flows through the pipeline. -/
inductive Json where
  | null
  | bool (b : Bool)
  | num (n : Int)
  | str (s : String)
  | arr (elems : List Json)
  | obj (fields : List (String × Json))
deriving Repr

mutual

/-- Structural equality of modelled JS values (used for `Map` key lookup
and `Set` dedup; the code only ever uses primitive keys/elements there, for
which JS `SameValueZero` agrees with structural equality). -/
def jsonEq : Json → Json → Bool
  | .null, .null => true
  | .bool a, .bool b => a == b
  | .num a, .num b => a == b
  | .str a, .str b => a == b
  | .arr xs, .arr ys => jsonEqList xs ys
  | .obj xs, .obj ys => jsonEqFields xs ys
  | _, _ => false

def jsonEqList : List Json → List Json → Bool
  | [], [] => true
  | x :: xs, y :: ys => jsonEq x y && jsonEqList xs ys
  | _, _ => false

def jsonEqFields : List (String × Json) → List (String × Json) → Bool
  | [], [] => true
  | (k1, v1) :: xs, (k2, v2) :: ys => k1 == k2 && jsonEq v1 v2 && jsonEqFields xs ys
  | _, _ => false

end

namespace Json

/-- Property lookup on an object's field list (first binding wins, as in a
JS object literal read). -/
def lookupField : List (String × Json) → String → Option Json
  | [], _ => none
  | (k, v) :: rest, key => if k = key then some v else lookupField rest key

/-- `j.k` property access where `j` is known not to be `null`/`undefined`:
returns `none` for JS `undefined` (missing key, or access on a primitive). -/
def getField (j : Json) (k : String) : Option Json :=
  match j with
  | .obj fs => lookupField fs k
  | _ => none

/-- JS truthiness of a defined value. -/
def jsTruthy : Json → Bool
  | .null => false
  | .bool b => b
  | .num n => n != 0
  | .str s => s ≠ ""
  | .arr _ => true
  | .obj _ => true

/-- JS truthiness of a possibly-`undefined` value. -/
def jsTruthyO : Option Json → Bool
  | none => false
  | some j => jsTruthy j

end Json

/-! ## String machinery shared by the response parsers

The JS code manipulates response text with regexes; the relevant regex
operations are translated here over `List Char`.  One whitespace predicate
serves both JS `\s` and `String.prototype.trim` (their character classes
coincide on every character the code can meet). -/

/-- JS whitespace (`\s` / `trim`): space, tab, LF, VT, FF, CR, NBSP, BOM,
and the Unicode line/paragraph separators. -/
def isJsWs (c : Char) : Bool :=
  c = ' ' || c = '\t' || c = '\n' || c = '\x0b' || c = '\x0c' || c = '\r' ||
  c = ' ' || c = '﻿' || c = ' ' || c = ' '

/-- `String.prototype.trim` on a character list. -/
def jsTrimL (l : List Char) : List Char :=
  ((l.dropWhile isJsWs).reverse.dropWhile isJsWs).reverse

/-- `String.prototype.trim`. -/
def jsTrim (s : String) : String :=
  ⟨jsTrimL s.data⟩

/-- Global replace of `/```json\n?/` with the empty string
(`.replace(/```json\n?/g, '')`): at each position, a literal ```` ```json ````
match greedily also consumes one following newline; scanning resumes after
the match. -/
def stripJsonFences : List Char → List Char
  | '`' :: '`' :: '`' :: 'j' :: 's' :: 'o' :: 'n' :: '\n' :: rest => stripJsonFences rest
  | '`' :: '`' :: '`' :: 'j' :: 's' :: 'o' :: 'n' :: rest => stripJsonFences rest
  | c :: rest => c :: stripJsonFences rest
  | [] => []

/-- Global replace of `/```\n?/` with the empty string
(`.replace(/```\n?/g, '')`). -/
def stripFences : List Char → List Char
  | '`' :: '`' :: '`' :: '\n' :: rest => stripFences rest
  | '`' :: '`' :: '`' :: rest => stripFences rest
  | c :: rest => c :: stripFences rest
  | [] => []

/-- C0/C1 control character (the class `[\u0000-\u001F\u007F-\u009F]`). -/
def isCtrl (c : Char) : Bool :=
  c.val ≤ 0x1F || (0x7F ≤ c.val && c.val ≤ 0x9F)

/-- Global replace of `/[\u0000-\u001F\u007F-\u009F]/` with the empty
string (removes every control character, newlines included). -/
def stripCtrl (l : List Char) : List Char :=
  l.filter (fun c => !isCtrl c)

/-- One step of the global replace of `/\n\s*\n/` with `"\n"`: a match
starting at a newline extends through the following whitespace run up to
the run's last newline (greedy `\s*` backtracking one `\n`); the
replacement text is not rescanned.  `fuel` bounds the recursion; every
step strictly shrinks the list, so `fuel = length` is exact. -/
def collapseNlAux : Nat → List Char → List Char
  | 0, l => l
  | _ + 1, [] => []
  | fuel + 1, c :: tl =>
    if c = '\n' then
      let run := tl.takeWhile isJsWs
      if run.contains '\n' then
        let after := (run.reverse.takeWhile (fun x => x ≠ '\n')).reverse
        '\n' :: collapseNlAux fuel (after ++ tl.dropWhile isJsWs)
      else c :: collapseNlAux fuel tl
    else c :: collapseNlAux fuel tl

/-- `.replace(/\n\s*\n/g, '\n')`. -/
def collapseNl (l : List Char) : List Char :=
  collapseNlAux l.length l

/-- Head match of the fenced-block regex
`` /```(?:json)?\n([\s\S]*?)\n```/ `` past the opening delimiter: the lazy
group captures the shortest prefix that is followed by `"\n```"`. -/
def splitBefore (l : List Char) : Option (List Char) :=
  match l with
  | [] => none
  | c :: cs =>
    if (c :: cs).take 4 = ['\n', '`', '`', '`'] then some []
    else (splitBefore cs).map (c :: ·)

/-- Try to match the fenced-block regex at the current position: the
opening delimiter is ```` ```json ```` followed by a newline, or (after the
optional group backtracks) ```` ``` ```` followed by a newline. -/
def matchFencedAt : List Char → Option (List Char)
  | '`' :: '`' :: '`' :: 'j' :: 's' :: 'o' :: 'n' :: '\n' :: rest => splitBefore rest
  | '`' :: '`' :: '`' :: '\n' :: rest => splitBefore rest
  | _ => none

/-- `text.match(/```(?:json)?\n([\s\S]*?)\n```/)`: the capture group of the
leftmost match, if any. -/
def scanFenced : List Char → Option (List Char)
  | [] => none
  | c :: cs =>
    match matchFencedAt (c :: cs) with
    | some body => some body
    | none => scanFenced cs

/-- `String.prototype.includes` (substring test). -/
def hasSub (l pat : List Char) : Bool :=
  pat.isPrefixOf l ||
    match l with
    | [] => false
    | _ :: tl => hasSub tl pat

/-- `String.prototype.toLowerCase` (ASCII case folding suffices for the
keywords the code searches for). -/
def jsLower (s : String) : String :=
  ⟨s.data.map Char.toLower⟩

/-- `s.split(' ')[0]`: the text before the first space. -/
def jsSplitFirst (s : String) : String :=
  ⟨s.data.takeWhile (fun c => c ≠ ' ')⟩

/-! ## `generateBrandResearch` — the research JSON extraction ladder

From `scriptGenerator.mcp.js`: the model's response text goes through
(1) fenced-code-block extraction + `JSON.parse`, (2) fence-marker
stripping + `JSON.parse`, (3) a synthesized placeholder object carrying
the raw text.  `JSON.parse` is the JS builtin, modelled as an explicit
parameter `jparse : String → Option Json` (`none` = the parse threw). -/

/-- Strategy 1 candidate: the body of the first fenced code block if one
matches, otherwise the whole text (`jsonMatch || [null, researchText]`),
then `.trim()`. -/
def fencedCandidate (researchText : String) : String :=
  jsTrim ⟨(scanFenced researchText.data).getD researchText.data⟩

/-- Strategy 2 candidate: remove all ```` ```json ```` and ```` ``` ````
markers, then `.trim()`. -/
def cleanedCandidate (researchText : String) : String :=
  jsTrim ⟨stripFences (stripJsonFences researchText.data)⟩

/-- Strategy 3: the synthesized placeholder research object, with every
required section present and the original text attached verbatim under
`rawResponse`. -/
def fallbackResearch (researchText : String) : Json :=
  .obj [
    ("brandEssence", .obj [
      ("coreStory", .str researchText),
      ("emotionalAppeal", .str "See full response above"),
      ("audienceInsights", .str "See full response above")]),
    ("creativeOpportunities", .obj [
      ("storytellingAngles", .str "See full response above"),
      ("visualPossibilities", .str "See full response above"),
      ("brandExpression", .str "See full response above")]),
    ("strategicContext", .obj [
      ("marketPosition", .str "See full response above"),
      ("industryTrends", .str "See full response above"),
      ("growthOpportunities", .str "See full response above")]),
    ("brandVoice", .obj [
      ("tone", .str "See full response above"),
      ("visualLanguage", .str "See full response above"),
      ("communicationStyle", .str "See full response above")]),
    ("implementation", .obj [
      ("keyTouchpoints", .str "See full response above"),
      ("challenges", .str "See full response above"),
      ("opportunities", .str "See full response above")]),
    ("rawResponse", .str researchText)]

/-- The three-strategy extraction ladder of `generateBrandResearch`
(lines 447–499 of the script generator). -/
def parseResearch (jparse : String → Option Json) (researchText : String) : Json :=
  match jparse (fencedCandidate researchText) with
  | some research => research
  | none =>
    match jparse (cleanedCandidate researchText) with
    | some research => research
    | none => fallbackResearch researchText

/-- `generateBrandResearch brandInfo`: the Gemini round-trip is abstracted
to `gemini : Except String String` (the extracted `candidates[0]…text`, or
a thrown error — HTTP failure or missing response shape).  On success the
handler-visible result is `{research, metadata}`; the conversation-history
write and timestamp are side effects with no reader among the claims. -/
def generateBrandResearch (jparse : String → Option Json)
    (gemini : Except String String) (model : Json) : Except String Json :=
  match gemini with
  | .error e => .error e
  | .ok researchText =>
    .ok (.obj [
      ("research", parseResearch jparse researchText),
      ("metadata", .obj [("model", model), ("mcp", .bool true)])])

/-! ## `generateScriptContent` — script parse + shape validation

From `scriptGenerator.mcp.js` lines 560–585: the response text is cleaned
(fence markers, control characters, blank-line collapse, trim), parsed
once, and the result is rejected unless `sections` is an array.  Both
rejection paths throw out of the function (re-wrapped as
`Failed to parse script content: …`); there is no placeholder fallback. -/

/-- The cleanup applied before the parse attempt.  Note the control
character removal deletes every newline, making the subsequent blank-line
collapse a no-op in fact; both steps are modelled as written. -/
def scriptClean (content : String) : String :=
  jsTrim ⟨collapseNl (stripCtrl (stripFences (stripJsonFences content.data)))⟩

/-- The two ways `generateScriptContent` throws after receiving response
text (messages are wrapped as `Failed to parse script content: …`). -/
inductive ScriptParseErr where
  | jsonSyntax        -- `JSON.parse` threw on the cleaned content
  | invalidStructure  -- parsed, but `sections` is missing or not an array
deriving DecidableEq, Repr

/-- `!parsedContent.sections || !Array.isArray(parsedContent.sections)`
inverted: the parsed value passes validation iff its `sections` property
is an array (arrays are truthy; every non-array value, truthy or falsy,
is rejected; property access on a parsed `null` also throws, which lands
in the same rejection path). -/
def sectionsIsArray (j : Json) : Bool :=
  match j.getField "sections" with
  | some (.arr _) => true
  | _ => false

/-- The parse/validate tail of `generateScriptContent` applied to the
model's response text. -/
def parseScriptContent (jparse : String → Option Json) (content : String) :
    Except ScriptParseErr Json :=
  match jparse (scriptClean content) with
  | none => .error .jsonSyntax
  | some parsedContent =>
    if sectionsIsArray parsedContent then .ok parsedContent
    else .error .invalidStructure

/-! ## `pollStatus` — the polling coordinator

From `mediaGenerator.js` lines 40–71.  The environment supplies the n-th
status request's outcome and the time each external step consumes:
`checkTime n` is the duration of the n-th `axios.get`, and the n-th
`setTimeout(interval)` wakes after `interval + sleepExtra n` (timers never
fire early).  `elapsed` is `Date.now() - startTime` as observed at the
loop condition.  `fuel` bounds the recursion; `.fuelOut` is a modelling
artifact proven unreachable for the fuel the wrappers pass. -/

structure PollEnv where
  /-- Outcome of the n-th `axios.get(statusUrl)`: the response `data`, or
  a thrown request error. -/
  resp : Nat → Except String Json
  /-- Time consumed by the n-th status request. -/
  checkTime : Nat → Nat
  /-- Extra delay of the n-th `setTimeout` beyond `interval`. -/
  sleepExtra : Nat → Nat

/-- `response.data.status` compared with `===` against status strings: a
missing or non-string status compares unequal to every status word, which
reading it as `""` reproduces. -/
def jStatus (data : Json) : String :=
  match data.getField "status" with
  | some (.str s) => s
  | _ => ""

/-- `Request failed: ${response.data.error || 'Unknown error'}` (display of
a non-string truthy `error` value is abbreviated; no claim reads it). -/
def pollFailMsg (data : Json) : String :=
  "Request failed: " ++
    match data.getField "error" with
    | some (.str s) => if s = "" then "Unknown error" else s
    | some (.num n) => if n = 0 then "Unknown error" else toString n
    | some (.bool b) => if b then "true" else "Unknown error"
    | some (.arr _) => "[array]"
    | some (.obj _) => "[object Object]"
    | _ => "Unknown error"

inductive PollResult where
  | success (data : Json)   -- `return response.data` on COMPLETED
  | failure (msg : String)  -- FAILED status or a request error, rethrown
  | timedOut                -- `throw new Error('Request timed out')`
  | fuelOut                 -- fuel artifact, unreachable with 0 < interval
deriving Repr

/-- The `while (Date.now() - startTime < timeout)` loop.  Returns the
result, the list of loop-condition times at which a status check was
issued, and the elapsed time at the moment the function returns (for the
timeout throw, the loop-condition time that failed). -/
def pollLoop (env : PollEnv) (interval timeout : Nat) :
    Nat → Nat → Nat → PollResult × List Nat × Nat
  | fuel, n, elapsed =>
    if elapsed < timeout then
      match fuel with
      | 0 => (.fuelOut, [], elapsed)
      | fuel + 1 =>
        match env.resp n with
        | .error msg => (.failure msg, [elapsed], elapsed + env.checkTime n)
        | .ok data =>
          if jStatus data = "COMPLETED" then
            (.success data, [elapsed], elapsed + env.checkTime n)
          else if jStatus data = "FAILED" then
            (.failure (pollFailMsg data), [elapsed], elapsed + env.checkTime n)
          else
            let next := pollLoop env interval timeout fuel (n + 1)
              (elapsed + env.checkTime n + interval + env.sleepExtra n)
            (next.1, elapsed :: next.2.1, next.2.2)
    else (.timedOut, [], elapsed)

/-- `pollStatus(statusUrl, interval, timeout)` started at time 0 with
fuel that the theorems prove sufficient whenever `0 < interval`. -/
def pollStatus (env : PollEnv) (interval timeout : Nat) :
    PollResult × List Nat × Nat :=
  pollLoop env interval timeout (timeout + 1) 0 0

/-- `pollStatus(statusUrl)` with the default `interval = 20000` and
`timeout = 300000`. -/
def pollStatusDefault (env : PollEnv) : PollResult × List Nat × Nat :=
  pollStatus env 20000 300000

/-! ## `executeModelRequest` — immediate execution with queued fallback

From `mediaGenerator.js` lines 79–153.  `fal.request` and `fal.subscribe`
are the provider's two entry points; their responses are opaque JS values.
A truthy `status_url` on either response routes through `pollStatus` with
its default interval/timeout; the polling behavior reachable from a given
`status_url` value is supplied by the environment as a `PollEnv`.  The
`onQueueUpdate` progress callback only logs and is elided. -/

structure FalEnv where
  /-- `fal.request(modelId, { input })`. -/
  request : String → Json → Except String Json
  /-- `fal.subscribe(modelId, { input, logs, onQueueUpdate })`. -/
  subscribe : String → Json → Except String Json
  /-- The status endpoint behind a given `status_url` value. -/
  pollEnvOf : Json → PollEnv

/-- `if (response.status_url)`: the `status_url` property when truthy. -/
def statusUrlOf (resp : Json) : Option Json :=
  match resp.getField "status_url" with
  | some v => if v.jsTruthy then some v else none
  | none => none

/-- `await pollStatus(url)` as an exception-or-value outcome.  The fuel
artifact cannot occur at the default `interval = 20000`; it is mapped to
the timeout throw, the only remaining loop exit. -/
def runPoll (pe : PollEnv) : Except String Json :=
  match (pollStatusDefault pe).1 with
  | .success data => .ok data
  | .failure msg => .error msg
  | .timedOut => .error "Request timed out"
  | .fuelOut => .error "Request timed out"

/-- `{ data: finalStatus.output, requestId: response.request_id }`
(an absent property yields a JS `undefined` field value, modelled `null`). -/
def normalizedResult (finalStatus resp : Json) : Json :=
  .obj [
    ("data", (finalStatus.getField "output").getD .null),
    ("requestId", (resp.getField "request_id").getD .null)]

/-- Outcome of `executeModelRequest` plus whether the queued path
(`fal.subscribe`) was invoked. -/
structure ExecOut where
  result : Except String Json
  subscribeCalled : Bool
deriving Repr

/-- The `catch` block of `executeModelRequest`: queued submission, with
its own status polling when the queue response carries a truthy
`status_url`; errors thrown here propagate to the caller. -/
def execFallback (env : FalEnv) (modelId : String) (input : Json) : ExecOut :=
  match env.subscribe modelId input with
  | .error e => { result := .error e, subscribeCalled := true }
  | .ok queueResponse =>
    match statusUrlOf queueResponse with
    | some url =>
      match runPoll (env.pollEnvOf url) with
      | .ok finalStatus =>
        { result := .ok (normalizedResult finalStatus queueResponse),
          subscribeCalled := true }
      | .error e => { result := .error e, subscribeCalled := true }
    | none => { result := .ok queueResponse, subscribeCalled := true }

/-- `executeModelRequest(modelId, input)`.  Note the `try` block spans the
immediate request *and* its status polling, so a polling failure after a
successful immediate call also lands in the queued fallback. -/
def executeModelRequest (env : FalEnv) (modelId : String) (input : Json) : ExecOut :=
  match env.request modelId input with
  | .error _ => execFallback env modelId input
  | .ok response =>
    match statusUrlOf response with
    | some url =>
      match runPoll (env.pollEnvOf url) with
      | .ok finalStatus =>
        { result := .ok (normalizedResult finalStatus response),
          subscribeCalled := false }
      | .error _ => execFallback env modelId input
    | none => { result := .ok response, subscribeCalled := false }

/-! ## `generateMediaPrompts` — media prompt derivation

From `mediaPromptGenerator.mcp.js` lines 134–260.  The function is pure
but wrapped in a `try`/`catch` returning `{ok:false}`: inside the loop,
`sect.visualElements` throws on a `null` sect and
`sect.visualElements.forEach` throws on a truthy non-array value; both
land in the catch.  The conversation-history write and the Gemini `model`
argument have no effect on the returned prompts and are elided. -/

/-- JS optional chaining `x?.k` on a possibly-`undefined` value. -/
def jsOptChain (o : Option Json) (k : String) : Option Json :=
  match o with
  | none => none
  | some .null => none
  | some v => v.getField k

/-- JS `x || d` where a defined, truthy `x` wins. -/
def jsOr (o : Option Json) (d : Json) : Json :=
  match o with
  | some v => if v.jsTruthy then v else d
  | none => d

/-- JS `x?.[0]`: first element of an array, `undefined` otherwise. -/
def jsIndex0 (o : Option Json) : Option Json :=
  match o with
  | some (.arr (x :: _)) => some x
  | _ => none

structure VisualPrompts where
  images : List Json
  animations : List Json
deriving Repr

/-- The animation prompt object pushed for a string visual element whose
lowercase form mentions animation/motion/transition. -/
def mkAnimationPrompt (sect : Json) (element : String) : Json :=
  .obj [
    ("prompt", .str element),
    ("style", jsOr (jsOptChain (sect.getField "craftAndDesignDetails") "style")
      (.str "cinematic")),
    ("duration", .str "5 seconds"),
    ("transition", jsOr (sect.getField "motionTransitions") (.str "smooth fade"))]

/-- The image prompt object pushed for every other string visual element. -/
def mkImagePrompt (sect : Json) (element : String) : Json :=
  .obj [
    ("prompt", .str element),
    ("style", jsOr (jsOptChain (sect.getField "craftAndDesignDetails") "style")
      (.str "modern")),
    ("mood", jsOr (jsOptChain (sect.getField "craftAndDesignDetails") "mood")
      (.str "professional")),
    ("technicalSpecs", .str "high quality, detailed, 4k resolution")]

/-- Classification of one visual element: non-strings are skipped
(`typeof element === 'string'`); strings are routed by keyword search on
the lowercased text. -/
def classifyElement (sect : Json) (vp : VisualPrompts) (element : Json) :
    VisualPrompts :=
  match element with
  | .str s =>
    let low := (jsLower s).data
    if hasSub low "animation".data || hasSub low "motion".data ||
        hasSub low "transition".data then
      { vp with animations := vp.animations ++ [mkAnimationPrompt sect s] }
    else
      { vp with images := vp.images ++ [mkImagePrompt sect s] }
  | _ => vp

/-- One iteration of `script.sections.forEach(section => …)`.  `.error ()`
models a thrown `TypeError`: reading `.visualElements` off a `null`
sect, or calling `.forEach` on a truthy non-array `visualElements`. -/
def processSection (vp : VisualPrompts) (sect : Json) :
    Except Unit VisualPrompts :=
  match sect with
  | .null => .error ()
  | _ =>
    match sect.getField "visualElements" with
    | some ve =>
      if ve.jsTruthy then
        match ve with
        | .arr elems => .ok (elems.foldl (classifyElement sect) vp)
        | _ => .error ()
      else .ok vp
    | none => .ok vp

/-- Default prompts used when the script has no usable `sections` array. -/
def defaultNoSectionsPrompts : VisualPrompts where
  images := [.obj [
    ("prompt", .str "Dynamic shot showcasing brand identity and values"),
    ("style", .str "modern"),
    ("mood", .str "professional"),
    ("technicalSpecs", .str "high quality, detailed, 4k resolution")]]
  animations := [.obj [
    ("prompt", .str "Smooth brand logo animation with dynamic transitions"),
    ("style", .str "cinematic"),
    ("duration", .str "5 seconds"),
    ("transition", .str "smooth fade")]]

/-- The "ensure we have at least one prompt of each type" block. -/
def ensureNonempty (vp : VisualPrompts) : VisualPrompts :=
  let vp1 :=
    if vp.images.length = 0 then
      { vp with images := [.obj [
          ("prompt", .str "Dynamic brand showcase with modern aesthetic"),
          ("style", .str "modern"),
          ("mood", .str "professional"),
          ("technicalSpecs", .str "high quality, detailed, 4k resolution")]] }
    else vp
  if vp1.animations.length = 0 then
    { vp1 with animations := [.obj [
        ("prompt", .str "Smooth brand logo animation"),
        ("style", .str "cinematic"),
        ("duration", .str "5 seconds"),
        ("transition", .str "smooth fade")]] }
  else vp1

/-- `craftGuidelines`, read off `script?.sections?.[0]` with literal
fallbacks. -/
def craftGuidelinesOf (script : Option Json) : Json :=
  let section0 := jsIndex0 (jsOptChain script "sections")
  let cdd := jsOptChain section0 "craftAndDesignDetails"
  .obj [
    ("visualStyle", jsOr (jsOptChain cdd "style")
      (.str "Clean, modern, and professional. Emphasis on brand consistency and visual impact.")),
    ("colorPalette", jsOr (jsOptChain cdd "colors")
      (.str "Brand colors with complementary accents. High contrast for readability.")),
    ("typography", jsOr (jsOptChain cdd "typography")
      (.str "Modern sans-serif fonts. Clear hierarchy and excellent readability.")),
    ("animationStyle", jsOr (jsOptChain section0 "motionTransitions")
      (.str "Smooth, purposeful motion with professional transitions."))]

structure MediaPrompts where
  visualPrompts : VisualPrompts
  craftGuidelines : Json
deriving Repr

/-- The sections loop followed by the ensure-nonempty block and the
craft-guidelines read, for a script with a `sections` array. -/
def mediaPromptsOfSections (script : Option Json) (sections : List Json) :
    Except Unit MediaPrompts :=
  match List.foldlM processSection { images := [], animations := [] } sections with
  | .error e => .error e
  | .ok vp =>
    .ok { visualPrompts := ensureNonempty vp,
          craftGuidelines := craftGuidelinesOf script }

/-- The `try` body of `generateMediaPrompts`. -/
def mediaPromptsCore (script : Option Json) : Except Unit MediaPrompts :=
  match jsOptChain script "sections" with
  | some (.arr sections) => mediaPromptsOfSections script sections
  | _ =>
    .ok { visualPrompts := ensureNonempty defaultNoSectionsPrompts,
          craftGuidelines := craftGuidelinesOf script }

/-- Result of `generateMediaPrompts` as its callers see it: the `ok` flag
and, when `ok`, the `mediaPrompts` payload (`metadata`/`message` carry no
data the callers read beyond `ok` and `mediaPrompts`). -/
structure MPOut where
  ok : Bool
  mediaPrompts : Option MediaPrompts
deriving Repr

/-- `generateMediaPrompts(script, model, brandName)`. -/
def generateMediaPrompts (script : Option Json) : MPOut :=
  match mediaPromptsCore script with
  | .ok mp => { ok := true, mediaPrompts := some mp }
  | .error _ => { ok := false, mediaPrompts := none }

/-! ## The `/generate/research` and `/generate/script` handlers

From `index.js`.  `researchStore` is a JS `Map`; its keys here are
`Option Json` (`none` = the JS `undefined` produced by reading `.name` off
an object without one).  Key comparison is structural, matching JS
`SameValueZero` on the primitive keys the code produces. -/

structure StoredResearch where
  research : Json
  brandInfo : Json
deriving Repr

def Store := List (Option Json × StoredResearch)

/-- `Map` key comparison. -/
def keyEq : Option Json → Option Json → Bool
  | none, none => true
  | some a, some b => jsonEq a b
  | _, _ => false

/-- `researchStore.get(key)`. -/
def storeGet (st : Store) (k : Option Json) : Option StoredResearch :=
  match st with
  | [] => none
  | e :: rest => if keyEq e.1 k then some e.2 else storeGet rest k

/-- `researchStore.set(key, value)` (overwrite or insert). -/
def storeSet (st : Store) (k : Option Json) (v : StoredResearch) : Store :=
  match st with
  | [] => [(k, v)]
  | e :: rest => if keyEq e.1 k then (k, v) :: rest else e :: storeSet rest k v

/-- `typeof brandInfo === 'object' ? brandInfo.name : brandInfo.split(' ')[0]`.
Objects and arrays take their `name` property (possibly `undefined`);
strings take the text before the first space; a number or boolean throws
(`split` is not a function).  A `null` would both be `typeof 'object'` and
throw, but it is unreachable behind the handler's `!brandInfo` guard. -/
def researchKeyE : Json → Except String (Option Json)
  | .obj fs => .ok (Json.lookupField fs "name")
  | .arr _ => .ok none
  | .str s => .ok (some (.str (jsSplitFirst s)))
  | _ => .error "TypeError: brandInfo.split is not a function"

/-- Handler outcome: HTTP status, response body, and the store afterwards. -/
structure ResearchOut where
  status : Nat
  body : Json
  store : Store

/-- The `POST /generate/research` handler (`index.js` lines 142–193):
validate `brandInfo`, derive the session key, run `generateBrandResearch`,
store `{research, brandInfo}` under the key, and answer with the research
and `sessionId`.  Any throw (key derivation, Gemini call) lands in the
catch as a 500. -/
def postResearch (jparse : String → Option Json) (gemini : Except String String)
    (st : Store) (brandInfo : Option Json) (model : Json) : ResearchOut :=
  match brandInfo with
  | none =>
    { status := 400, body := .obj [("error", .str "Brand information is required")],
      store := st }
  | some bi =>
    if bi.jsTruthy = false then
      { status := 400, body := .obj [("error", .str "Brand information is required")],
        store := st }
    else
      match researchKeyE bi with
      | .error _ =>
        { status := 500, body := .obj [("error", .str "Failed to generate research")],
          store := st }
      | .ok researchKey =>
        match generateBrandResearch jparse gemini model with
        | .error _ =>
          { status := 500, body := .obj [("error", .str "Failed to generate research")],
            store := st }
        | .ok result =>
          let research := (result.getField "research").getD .null
          { status := 200,
            body := .obj [
              ("ok", .bool true),
              ("research", research),
              ("sessionId", researchKey.getD .null),
              ("message", .str "Research completed successfully. Please proceed with script generation.")],
            store := storeSet st researchKey { research := research, brandInfo := bi } }

/-! ### The asset-generation section of `POST /generate/script`
(`index.js` lines 283–343): at most the first 2 image prompts and the
first 1 animation prompt are submitted; a per-item failure is caught and
logged, dropping only that item. -/

/-- Dependencies of the script handler that live outside the claims'
scope: the script generator (`generateScript`, exercised at its call
boundary), the two media generators, Drive persistence, and the clock. -/
structure ScriptDeps where
  /-- `generateScript({brandInfo, research, campaignGoals, targetAudience,
  creativeDirection, model})`. -/
  genScript : Json → Json → Json → Json → Option Json → Json → Except String Json
  /-- `generateImage(args)` with the argument object the handler builds. -/
  genImage : Json → Except String Json
  /-- `generateVideo(args)`. -/
  genVideo : Json → Except String Json
  /-- `saveAssetsToDrive(assets, brandName, sessionId)`. -/
  saveAssets : List Json → Except String (List Json)
  /-- `new Date().toISOString()`. -/
  now : String

/-- The image `for … of images.slice(0, 2)` loop: returns the pushed
assets and the number of `generateImage` invocations. -/
def imageLoop (deps : ScriptDeps) (visualStyle colorPalette : Json) :
    List Json → List Json × Nat
  | [] => ([], 0)
  | p :: ps =>
    let args : Json := .obj [
      ("prompt", (p.getField "prompt").getD .null),
      ("style", visualStyle),
      ("mood", .str "professional")]
    let rest := imageLoop deps visualStyle colorPalette ps
    match deps.genImage args with
    | .ok image =>
      if image.jsTruthy then
        (.obj [
          ("type", .str "image"),
          ("url", (image.getField "url").getD .null),
          ("prompt", p),
          ("metadata", .obj [("style", visualStyle), ("colorPalette", colorPalette)])]
          :: rest.1, rest.2 + 1)
      else (rest.1, rest.2 + 1)
    | .error _ => (rest.1, rest.2 + 1)

/-- The animation `for … of animations.slice(0, 1)` loop. -/
def animationLoop (deps : ScriptDeps) (animationStyle : Json) :
    List Json → List Json × Nat
  | [] => ([], 0)
  | p :: ps =>
    let args : Json := .obj [
      ("prompt", (p.getField "prompt").getD .null),
      ("style", animationStyle),
      ("duration", .num 5),
      ("transition", .str "smooth fade")]
    let rest := animationLoop deps animationStyle ps
    match deps.genVideo args with
    | .ok animation =>
      if animation.jsTruthy then
        (.obj [
          ("type", .str "animation"),
          ("url", (animation.getField "url").getD .null),
          ("prompt", p),
          ("metadata", .obj [
            ("style", animationStyle),
            ("duration", .num 5),
            ("transition", .str "smooth fade")])]
          :: rest.1, rest.2 + 1)
      else (rest.1, rest.2 + 1)
    | .error _ => (rest.1, rest.2 + 1)

/-- The whole asset-generation section: caps of 2 images and 1 animation,
applied only when the respective prompt list is non-empty.  Returns
(assets, image invocations, video invocations). -/
def assetsPhase (deps : ScriptDeps) (mp : MediaPrompts) : List Json × Nat × Nat :=
  let visualStyle := (mp.craftGuidelines.getField "visualStyle").getD .null
  let colorPalette := (mp.craftGuidelines.getField "colorPalette").getD .null
  let animationStyle := (mp.craftGuidelines.getField "animationStyle").getD .null
  let imgs :=
    if mp.visualPrompts.images.length > 0 then
      imageLoop deps visualStyle colorPalette (mp.visualPrompts.images.take 2)
    else ([], 0)
  let anims :=
    if mp.visualPrompts.animations.length > 0 then
      animationLoop deps animationStyle (mp.visualPrompts.animations.take 1)
    else ([], 0)
  (imgs.1 ++ anims.1, imgs.2, anims.2)

/-- `[...new Set(xs)]` (first occurrence kept). -/
def dedupJson (l : List Json) : List Json :=
  l.foldl (fun acc x => if acc.any (jsonEq x) then acc else acc ++ [x]) []

/-- The `folders` array: present only when the first saved asset has a
truthy `folderId`. -/
def foldersOf (savedAssets : List Json) : Json :=
  match savedAssets with
  | first :: _ =>
    if Json.jsTruthyO (first.getField "folderId") then
      .arr [.obj [
        ("id", (first.getField "folderId").getD .null),
        ("name", (first.getField "folderName").getD .null),
        ("url", (first.getField "folderUrl").getD .null)]]
    else .arr []
  | [] => .arr []

/-- `folderUrls` in the success metadata. -/
def folderUrlsOf (savedAssets : List Json) : Json :=
  match savedAssets with
  | first :: _ =>
    if Json.jsTruthyO (first.getField "folderId") then
      .arr [(first.getField "folderUrl").getD .null]
    else .arr []
  | [] => .arr []

/-- The `metadata` object of the handler's 200 response. -/
def scriptResponseMetadata (model : Json) (now : String) (savedAssets : List Json) : Json :=
  .obj [
    ("model", model),
    ("timestamp", .str now),
    ("totalAssets", .num savedAssets.length),
    ("assetTypes", .arr (dedupJson (savedAssets.map (fun a => (a.getField "type").getD .null)))),
    ("folderUrls", folderUrlsOf savedAssets)]

/-- Outcome of the `POST /generate/script` handler, with the invocation
counters the claims inspect. -/
structure ScriptOut where
  status : Nat
  body : Json
  calledGenScript : Bool
  imageCalls : Nat
  videoCalls : Nat

/-- Json rendering of the returned `mediaPrompts`. -/
def mediaPromptsJson (mp : MediaPrompts) : Json :=
  .obj [
    ("visualPrompts", .obj [
      ("images", .arr mp.visualPrompts.images),
      ("animations", .arr mp.visualPrompts.animations)]),
    ("craftGuidelines", mp.craftGuidelines)]

/-- The `POST /generate/script` handler (`index.js` lines 196–401):
field validation, the research gate, script generation, media-prompt
derivation (the modelled `generateMediaPrompts`), capped asset
generation, Drive persistence, and the success response. -/
def postScript (deps : ScriptDeps) (st : Store)
    (sessionId campaignGoals targetAudience creativeDirection model : Option Json) :
    ScriptOut :=
  if (Json.jsTruthyO sessionId && Json.jsTruthyO campaignGoals &&
      Json.jsTruthyO targetAudience) = false then
    { status := 400,
      body := .obj [("ok", .bool false), ("error", .str "Missing required fields"),
        ("message", .str "Please provide sessionId, campaignGoals, and targetAudience")],
      calledGenScript := false, imageCalls := 0, videoCalls := 0 }
  else
    let modelVal := model.getD (.str "gemini-2.0-flash")
    match storeGet st sessionId with
    | none =>
      { status := 400,
        body := .obj [("ok", .bool false), ("error", .str "No research found"),
          ("message", .str "Please generate research first")],
        calledGenScript := false, imageCalls := 0, videoCalls := 0 }
    | some research =>
      match deps.genScript research.brandInfo research.research
          (campaignGoals.getD .null) (targetAudience.getD .null)
          creativeDirection modelVal with
      | .error e =>
        { status := 500,
          body := .obj [("ok", .bool false), ("error", .str e),
            ("message", .str "Failed to generate script")],
          calledGenScript := true, imageCalls := 0, videoCalls := 0 }
      | .ok script =>
        if script.jsTruthy = false then
          { status := 500,
            body := .obj [("ok", .bool false), ("error", .str "Failed to generate script"),
              ("message", .str "Please try again")],
            calledGenScript := true, imageCalls := 0, videoCalls := 0 }
        else
          match generateMediaPrompts (some script) with
          | { ok := false, .. } =>
            { status := 500,
              body := .obj [("ok", .bool false),
                ("error", .str "Failed to generate media prompts"),
                ("message", .str "Please try again")],
              calledGenScript := true, imageCalls := 0, videoCalls := 0 }
          | { ok := true, mediaPrompts := none } =>
            -- unreachable: `generateMediaPrompts` pairs `ok` with a payload
            { status := 500, body := .null,
              calledGenScript := true, imageCalls := 0, videoCalls := 0 }
          | { ok := true, mediaPrompts := some mp } =>
            let phase := assetsPhase deps mp
            match deps.saveAssets phase.1 with
            | .error e =>
              { status := 500,
                body := .obj [("ok", .bool false), ("error", .str e),
                  ("message", .str "Failed to generate script")],
                calledGenScript := true, imageCalls := phase.2.1,
                videoCalls := phase.2.2 }
            | .ok savedAssets =>
              { status := 200,
                body := .obj [
                  ("ok", .bool true),
                  ("message", .str "Script, media prompts, and assets generated successfully"),
                  ("script", script),
                  ("mediaPrompts", mediaPromptsJson mp),
                  ("assets", .arr savedAssets),
                  ("folders", foldersOf savedAssets),
                  ("metadata", scriptResponseMetadata modelVal deps.now savedAssets)],
                calledGenScript := true, imageCalls := phase.2.1,
                videoCalls := phase.2.2 }

/-! ## Concrete environments used to instantiate the theorems -/

/-- A status source that always answers `PENDING` instantly. -/
def pendingEnv : PollEnv where
  resp := fun _ => .ok (.obj [("status", .str "PENDING")])
  checkTime := fun _ => 0
  sleepExtra := fun _ => 0

/-- A status source that answers `PENDING`, `PENDING`, then `COMPLETED`
with an output payload. -/
def threeStepEnv : PollEnv where
  resp := fun n =>
    if n < 2 then .ok (.obj [("status", .str "PENDING")])
    else .ok (.obj [("status", .str "COMPLETED"), ("output", .str "done")])
  checkTime := fun _ => 0
  sleepExtra := fun _ => 0

/-- A status source whose first request throws. -/
def failingPollEnv : PollEnv where
  resp := fun _ => .error "boom"
  checkTime := fun _ => 0
  sleepExtra := fun _ => 0

/-- A status source that reports `COMPLETED` with output on the first
check. -/
def completedPollEnv : PollEnv where
  resp := fun _ => .ok (.obj [("status", .str "COMPLETED"), ("output", .str "out")])
  checkTime := fun _ => 0
  sleepExtra := fun _ => 0

/-- A provider whose immediate call succeeds with a polling handle whose
polling then fails, and whose queued submission succeeds. -/
def pollFailFalEnv : FalEnv where
  request := fun _ _ => .ok (.obj [("status_url", .str "u"), ("request_id", .str "r")])
  subscribe := fun _ _ => .ok (.obj [("data", .str "queued")])
  pollEnvOf := fun _ => failingPollEnv

/-- A provider whose immediate call succeeds without a polling handle,
answering with an object not of the `{data, requestId}` shape. -/
def rawRespFalEnv : FalEnv where
  request := fun _ _ => .ok (.obj [("foo", .num 1)])
  subscribe := fun _ _ => .error "unused"
  pollEnvOf := fun _ => pendingEnv

/-- A provider whose immediate call succeeds with a polling handle and
whose polling completes at once. -/
def normalizingFalEnv : FalEnv where
  request := fun _ _ => .ok (.obj [("status_url", .str "u"), ("request_id", .str "r")])
  subscribe := fun _ _ => .error "unused"
  pollEnvOf := fun _ => completedPollEnv

/-- A script whose single section carries five plain-string visual
elements (five image prompts, no animation keywords). -/
def fiveImageScript : Json :=
  .obj [("sections", .arr [.obj [("visualElements",
    .arr [.str "a", .str "b", .str "c", .str "d", .str "e"])]])]

/-- Script-handler dependencies whose generators always succeed and whose
Drive save is the identity. -/
def okScriptDeps : ScriptDeps where
  genScript := fun _ _ _ _ _ _ => .ok fiveImageScript
  genImage := fun _ => .ok (.obj [("url", .str "img")])
  genVideo := fun _ => .ok (.obj [("url", .str "vid")])
  saveAssets := fun assets => .ok assets
  now := "t"

/-- A store holding research for the brand `Acme`. -/
def acmeStore : Store :=
  [(some (.str "Acme"),
    { research := .obj [], brandInfo := .obj [("name", .str "Acme")] })]

/-! ## Supporting lemmas -/

theorem string_mk_data (s : String) : (⟨s.data⟩ : String) = s := by
  cases s; rfl

/-- The lazy fenced-block body stops exactly at an appended `"\n```"`
marker when the body itself contains no newline. -/
theorem splitBefore_append (l : List Char) (h : '\n' ∉ l) :
    splitBefore (l ++ ['\n', '`', '`', '`']) = some l := by
  induction l with
  | nil => decide
  | cons c cs ih =>
    have hc : c ≠ '\n' := by
      intro e; exact h (e ▸ List.mem_cons_self c cs)
    have hcs : '\n' ∉ cs := fun m => h (List.mem_cons_of_mem c m)
    rw [List.cons_append]
    unfold splitBefore
    rw [if_neg, ih hcs]
    · rfl
    · intro heq
      rw [List.take_succ_cons] at heq
      injection heq with h1 _
      exact hc h1

/-- The fenced-block regex finds a ```` ```json ````-tagged block at the
start of the text and captures exactly the newline-free body. -/
theorem scanFenced_tagged (l : List Char) (h : '\n' ∉ l) :
    scanFenced ('`' :: '`' :: '`' :: 'j' :: 's' :: 'o' :: 'n' :: '\n' ::
      (l ++ ['\n', '`', '`', '`'])) = some l := by
  unfold scanFenced
  rw [show matchFencedAt ('`' :: '`' :: '`' :: 'j' :: 's' :: 'o' :: 'n' :: '\n' ::
      (l ++ ['\n', '`', '`', '`'])) = splitBefore (l ++ ['\n', '`', '`', '`']) from rfl]
  rw [splitBefore_append l h]

/-- Same for an untagged ```` ``` ```` block. -/
theorem scanFenced_untagged (l : List Char) (h : '\n' ∉ l) :
    scanFenced ('`' :: '`' :: '`' :: '\n' :: (l ++ ['\n', '`', '`', '`'])) = some l := by
  unfold scanFenced
  rw [show matchFencedAt ('`' :: '`' :: '`' :: '\n' :: (l ++ ['\n', '`', '`', '`'])) =
      splitBefore (l ++ ['\n', '`', '`', '`']) from rfl]
  rw [splitBefore_append l h]

/-! ## Claim theorems -/

/-- **C1** — For every model response string on which both JSON-parse
attempts fail (the fenced-block candidate and the fence-stripped
candidate), `generateBrandResearch`'s parsing returns an object with all
five required top-level sections present, whose `rawResponse` equals the
original response text verbatim, and the function signals no parse
error. -/
theorem research_parse_nonjson_fallback (jparse : String → Option Json) (t : String)
    (h1 : jparse (fencedCandidate t) = none)
    (h2 : jparse (cleanedCandidate t) = none) :
    (((parseResearch jparse t).getField "brandEssence").isSome = true ∧
     ((parseResearch jparse t).getField "creativeOpportunities").isSome = true ∧
     ((parseResearch jparse t).getField "strategicContext").isSome = true ∧
     ((parseResearch jparse t).getField "brandVoice").isSome = true ∧
     ((parseResearch jparse t).getField "implementation").isSome = true) ∧
    (parseResearch jparse t).getField "rawResponse" = some (.str t) ∧
    ∀ model, (generateBrandResearch jparse (.ok t) model).isOk = true := by
  have hp : parseResearch jparse t = fallbackResearch t := by
    unfold parseResearch; rw [h1, h2]
  rw [hp]
  exact ⟨⟨rfl, rfl, rfl, rfl, rfl⟩, rfl, fun _ => rfl⟩

/-- Witness for C1 at a concrete non-JSON response. -/
theorem research_parse_nonjson_fallback_witness :
    (parseResearch (fun _ => none) "not json at all").getField "rawResponse" =
      some (.str "not json at all") ∧
    ((parseResearch (fun _ => none) "not json at all").getField "brandEssence").isSome = true :=
  ⟨(research_parse_nonjson_fallback (fun _ => none) "not json at all" rfl rfl).2.1,
   (research_parse_nonjson_fallback (fun _ => none) "not json at all" rfl rfl).1.1⟩

/-- **C5** — Parsing a model response that is exactly a JSON text wrapped
in a fenced code block (tagged `json` or not) recovers exactly the value
that the JSON text denotes: the extraction hands `JSON.parse` precisely
the (trimmed) body.  `jparse` abstracts the `JSON.parse` builtin; the
body `s` plays the serialized text of the claim's object `v`, which —
being `JSON.stringify` output — contains no raw newline. -/
theorem research_parse_fenced_roundtrip (jparse : String → Option Json) (v : Json)
    (s : String) (tagged : Bool) (hnl : '\n' ∉ s.data)
    (hp : jparse (jsTrim s) = some v) :
    parseResearch jparse ((if tagged then "```json\n" else "```\n") ++ s ++ "\n```") = v := by
  cases tagged with
  | true =>
    have hfc : fencedCandidate ("```json\n" ++ s ++ "\n```") = jsTrim s := by
      unfold fencedCandidate
      rw [show ("```json\n" ++ s ++ "\n```").data =
          '`' :: '`' :: '`' :: 'j' :: 's' :: 'o' :: 'n' :: '\n' ::
            (s.data ++ ['\n', '`', '`', '`']) from rfl]
      rw [scanFenced_tagged s.data hnl]
      rw [show ((some s.data).getD _) = s.data from rfl, string_mk_data]
    show parseResearch jparse ("```json\n" ++ s ++ "\n```") = v
    unfold parseResearch
    rw [hfc, hp]
  | false =>
    have hfc : fencedCandidate ("```\n" ++ s ++ "\n```") = jsTrim s := by
      unfold fencedCandidate
      rw [show ("```\n" ++ s ++ "\n```").data =
          '`' :: '`' :: '`' :: '\n' :: (s.data ++ ['\n', '`', '`', '`']) from rfl]
      rw [scanFenced_untagged s.data hnl]
      rw [show ((some s.data).getD _) = s.data from rfl, string_mk_data]
    show parseResearch jparse ("```\n" ++ s ++ "\n```") = v
    unfold parseResearch
    rw [hfc, hp]

/-- Witness for C5: a concrete parser and fenced payload. -/
theorem research_parse_fenced_roundtrip_witness :
    parseResearch (fun t => if t = "[1]" then some (.arr [.num 1]) else none)
      ("```json\n" ++ "[1]" ++ "\n```") = .arr [.num 1] :=
  research_parse_fenced_roundtrip (fun t => if t = "[1]" then some (.arr [.num 1]) else none)
    (.arr [.num 1]) "[1]" true (by decide) rfl

/-- **C4** — Script-shape parsing signals an error, surfaced to the
caller, whenever the parsed result lacks an array-typed `sections` field;
and it never returns a synthesized placeholder: every successful result
is the parsed object itself, with `sections` an array. -/
theorem script_parse_requires_sections_array (jparse : String → Option Json)
    (content : String) :
    ((∃ j, jparse (scriptClean content) = some j ∧ sectionsIsArray j = false) →
      ∃ e, parseScriptContent jparse content = .error e) ∧
    (∀ j, parseScriptContent jparse content = .ok j →
      jparse (scriptClean content) = some j ∧ sectionsIsArray j = true) := by
  constructor
  · rintro ⟨j, hj, hs⟩
    refine ⟨.invalidStructure, ?_⟩
    unfold parseScriptContent
    rw [hj]
    show (if sectionsIsArray j = true then Except.ok j
      else Except.error ScriptParseErr.invalidStructure) = _
    rw [if_neg (by simp [hs])]
  · intro j hj
    unfold parseScriptContent at hj
    revert hj
    cases hpj : jparse (scriptClean content) with
    | none => intro hj; simp at hj
    | some p =>
      intro hj
      have hj2 : (if sectionsIsArray p = true then Except.ok p
          else Except.error ScriptParseErr.invalidStructure) = Except.ok j := hj
      by_cases hs : sectionsIsArray p = true
      · rw [if_pos hs] at hj2
        cases hj2
        exact ⟨rfl, hs⟩
      · rw [if_neg hs] at hj2
        simp at hj2

/-- Witness for C4: a parse result without `sections` is rejected. -/
theorem script_parse_requires_sections_array_witness :
    ∃ e, parseScriptContent (fun _ => some (.obj [("sections", .str "x")])) "irrelevant" =
      .error e :=
  (script_parse_requires_sections_array (fun _ => some (.obj [("sections", .str "x")]))
    "irrelevant").1 ⟨.obj [("sections", .str "x")], rfl, rfl⟩

/-- Unfolding one poll iteration whose status is neither `COMPLETED` nor
`FAILED`: one check is recorded and the loop re-enters after the check
time, the interval, and any timer lateness. -/
theorem pollLoop_step_nonterminal (env : PollEnv) (interval timeout fuel n elapsed : Nat)
    (d : Json) (he : elapsed < timeout) (hd : env.resp n = .ok d)
    (hc : jStatus d ≠ "COMPLETED") (hf : jStatus d ≠ "FAILED") :
    pollLoop env interval timeout (fuel + 1) n elapsed =
      ((pollLoop env interval timeout fuel (n + 1)
          (elapsed + env.checkTime n + interval + env.sleepExtra n)).1,
        elapsed :: (pollLoop env interval timeout fuel (n + 1)
          (elapsed + env.checkTime n + interval + env.sleepExtra n)).2.1,
        (pollLoop env interval timeout fuel (n + 1)
          (elapsed + env.checkTime n + interval + env.sleepExtra n)).2.2) := by
  rw [pollLoop, if_pos he, hd]
  simp [hc, hf]

/-- Unfolding one poll iteration whose status is `COMPLETED`. -/
theorem pollLoop_step_completed (env : PollEnv) (interval timeout fuel n elapsed : Nat)
    (d : Json) (he : elapsed < timeout) (hd : env.resp n = .ok d)
    (hc : jStatus d = "COMPLETED") :
    pollLoop env interval timeout (fuel + 1) n elapsed =
      (.success d, [elapsed], elapsed + env.checkTime n) := by
  rw [pollLoop, if_pos he, hd]
  simp [hc]

/-- A timed-out poll reports the loop-condition time that failed, which is
necessarily `≥ timeout` — the loop can only throw the timeout error after
observing `Date.now() - startTime ≥ timeout`. -/
theorem pollLoop_timedOut_ge (env : PollEnv) (interval timeout : Nat) :
    ∀ fuel n elapsed,
      (pollLoop env interval timeout fuel n elapsed).1 = PollResult.timedOut →
      timeout ≤ (pollLoop env interval timeout fuel n elapsed).2.2 := by
  intro fuel
  induction fuel with
  | zero =>
    intro n elapsed h
    rw [pollLoop] at h ⊢
    by_cases he : elapsed < timeout
    · rw [if_pos he] at h; simp at h
    · rw [if_neg he]; exact Nat.le_of_not_lt he
  | succ fuel ih =>
    intro n elapsed h
    rw [pollLoop] at h ⊢
    by_cases he : elapsed < timeout
    · rw [if_pos he] at h ⊢
      cases hr : env.resp n with
      | error msg => rw [hr] at h; simp at h
      | ok data =>
        rw [hr] at h
        by_cases hc : jStatus data = "COMPLETED"
        · simp [hc] at h
        · by_cases hf : jStatus data = "FAILED"
          · simp [hc, hf] at h
          · simp [hc, hf] at h ⊢
            exact ih _ _ h
    · rw [if_neg he]; exact Nat.le_of_not_lt he

/-- With a source that never reports a terminal status, the loop reaches
the timeout exit once the supplied fuel covers `timeout` (each iteration
advances elapsed time by at least `interval`). -/
theorem pollLoop_nonterminal_timesOut (env : PollEnv) (interval timeout : Nat)
    (hnc : ∀ n, ∃ d, env.resp n = .ok d ∧
      jStatus d ≠ "COMPLETED" ∧ jStatus d ≠ "FAILED") :
    ∀ fuel n elapsed, timeout ≤ elapsed + fuel * interval →
      (pollLoop env interval timeout fuel n elapsed).1 = PollResult.timedOut := by
  intro fuel
  induction fuel with
  | zero =>
    intro n elapsed hle
    rw [pollLoop, if_neg (by omega)]
  | succ fuel ih =>
    intro n elapsed hle
    by_cases he : elapsed < timeout
    · obtain ⟨d, hd, hc, hf⟩ := hnc n
      rw [pollLoop_step_nonterminal env interval timeout fuel n elapsed d he hd hc hf]
      exact ih (n + 1) _ (by rw [add_one_mul] at hle; omega)
    · rw [pollLoop, if_neg he]

/-- **C3** — Against a status source that never reports `COMPLETED` or
`FAILED`, `pollStatus` fails with the timeout error, doing so exactly when
the elapsed time reaches the configured timeout: the run from time 0 ends
in `timedOut` with the failing loop-condition time `≥ timeout`, and no
run whatsoever can end in `timedOut` while its observed elapsed time is
still `< timeout`. -/
theorem poll_nonterminal_times_out (env : PollEnv) (interval timeout : Nat)
    (hi : 0 < interval)
    (hnc : ∀ n, ∃ d, env.resp n = .ok d ∧
      jStatus d ≠ "COMPLETED" ∧ jStatus d ≠ "FAILED") :
    (pollStatus env interval timeout).1 = PollResult.timedOut ∧
    timeout ≤ (pollStatus env interval timeout).2.2 ∧
    (∀ fuel n elapsed,
      (pollLoop env interval timeout fuel n elapsed).1 = PollResult.timedOut →
      timeout ≤ (pollLoop env interval timeout fuel n elapsed).2.2) := by
  have h1 : (pollStatus env interval timeout).1 = PollResult.timedOut := by
    apply pollLoop_nonterminal_timesOut env interval timeout hnc
    have hm : (timeout + 1) * 1 ≤ (timeout + 1) * interval :=
      Nat.mul_le_mul_left _ hi
    omega
  exact ⟨h1, pollLoop_timedOut_ge env interval timeout (timeout + 1) 0 0 h1,
    pollLoop_timedOut_ge env interval timeout⟩

/-- Witness for C3: an always-`PENDING` source at `interval = 1`,
`timeout = 3`. -/
theorem poll_nonterminal_times_out_witness :
    (pollStatus pendingEnv 1 3).1 = PollResult.timedOut ∧
    3 ≤ (pollStatus pendingEnv 1 3).2.2 := by
  have h := poll_nonterminal_times_out pendingEnv 1 3 (by decide)
    (fun n => ⟨.obj [("status", .str "PENDING")], rfl, by decide, by decide⟩)
  exact ⟨h.1, h.2.1⟩

/-- **C6** — If the source reports `PENDING`/`IN_PROGRESS` on the first
two checks and `COMPLETED` on the third, `pollStatus` returns the
provider's response after exactly 3 status checks, consecutive checks
being issued at least `interval` apart (the third check must still fall
inside the timeout window). -/
theorem poll_completed_third_check (env : PollEnv) (interval timeout : Nat)
    (d0 d1 d2 : Json) (hi : 0 < interval)
    (h0 : env.resp 0 = .ok d0)
    (hs0 : jStatus d0 = "PENDING" ∨ jStatus d0 = "IN_PROGRESS")
    (h1 : env.resp 1 = .ok d1)
    (hs1 : jStatus d1 = "PENDING" ∨ jStatus d1 = "IN_PROGRESS")
    (h2 : env.resp 2 = .ok d2)
    (hs2 : jStatus d2 = "COMPLETED")
    (hfit : env.checkTime 0 + interval + env.sleepExtra 0 +
      (env.checkTime 1 + interval + env.sleepExtra 1) < timeout) :
    (pollStatus env interval timeout).1 = PollResult.success d2 ∧
    (pollStatus env interval timeout).2.1.length = 3 ∧
    (pollStatus env interval timeout).2.1.Chain' (fun a b => a + interval ≤ b) := by
  have hc0 : jStatus d0 ≠ "COMPLETED" := by rcases hs0 with h | h <;> simp [h]
  have hf0 : jStatus d0 ≠ "FAILED" := by rcases hs0 with h | h <;> simp [h]
  have hc1 : jStatus d1 ≠ "COMPLETED" := by rcases hs1 with h | h <;> simp [h]
  have hf1 : jStatus d1 ≠ "FAILED" := by rcases hs1 with h | h <;> simp [h]
  obtain ⟨k, rfl⟩ : ∃ k, timeout = k + 3 := ⟨timeout - 3, by omega⟩
  have S1 : pollLoop env interval (k + 3) (k + 3 + 1) 0 0 =
      ((pollLoop env interval (k + 3) (k + 3) 1
          (0 + env.checkTime 0 + interval + env.sleepExtra 0)).1,
        0 :: (pollLoop env interval (k + 3) (k + 3) 1
          (0 + env.checkTime 0 + interval + env.sleepExtra 0)).2.1,
        (pollLoop env interval (k + 3) (k + 3) 1
          (0 + env.checkTime 0 + interval + env.sleepExtra 0)).2.2) :=
    pollLoop_step_nonterminal env interval (k + 3) (k + 3) 0 0 d0 (by omega) h0 hc0 hf0
  have S2 : pollLoop env interval (k + 3) (k + 3) 1
      (0 + env.checkTime 0 + interval + env.sleepExtra 0) =
      ((pollLoop env interval (k + 3) (k + 2) 2
          (0 + env.checkTime 0 + interval + env.sleepExtra 0 +
            env.checkTime 1 + interval + env.sleepExtra 1)).1,
        (0 + env.checkTime 0 + interval + env.sleepExtra 0) ::
          (pollLoop env interval (k + 3) (k + 2) 2
          (0 + env.checkTime 0 + interval + env.sleepExtra 0 +
            env.checkTime 1 + interval + env.sleepExtra 1)).2.1,
        (pollLoop env interval (k + 3) (k + 2) 2
          (0 + env.checkTime 0 + interval + env.sleepExtra 0 +
            env.checkTime 1 + interval + env.sleepExtra 1)).2.2) :=
    pollLoop_step_nonterminal env interval (k + 3) (k + 2) 1
      (0 + env.checkTime 0 + interval + env.sleepExtra 0) d1 (by omega) h1 hc1 hf1
  have S3 : pollLoop env interval (k + 3) (k + 2) 2
      (0 + env.checkTime 0 + interval + env.sleepExtra 0 +
        env.checkTime 1 + interval + env.sleepExtra 1) =
      (PollResult.success d2,
        [0 + env.checkTime 0 + interval + env.sleepExtra 0 +
          env.checkTime 1 + interval + env.sleepExtra 1],
        0 + env.checkTime 0 + interval + env.sleepExtra 0 +
          env.checkTime 1 + interval + env.sleepExtra 1 + env.checkTime 2) :=
    pollLoop_step_completed env interval (k + 3) (k + 1) 2
      (0 + env.checkTime 0 + interval + env.sleepExtra 0 +
        env.checkTime 1 + interval + env.sleepExtra 1) d2 (by omega) h2 hs2
  have hps : pollStatus env interval (k + 3) =
      pollLoop env interval (k + 3) (k + 3 + 1) 0 0 := rfl
  rw [hps, S1, S2, S3]
  refine ⟨rfl, rfl, ?_⟩
  simp only [List.chain'_cons, List.chain'_singleton, and_true]
  constructor <;> omega

/-- Witness for C6 on the concrete three-step source. -/
theorem poll_completed_third_check_witness :
    (pollStatus threeStepEnv 1 3).1 =
      PollResult.success (.obj [("status", .str "COMPLETED"), ("output", .str "done")]) ∧
    (pollStatus threeStepEnv 1 3).2.1.length = 3 := by
  have h := poll_completed_third_check threeStepEnv 1 3
    (.obj [("status", .str "PENDING")]) (.obj [("status", .str "PENDING")])
    (.obj [("status", .str "COMPLETED"), ("output", .str "done")])
    (by decide) rfl (Or.inl rfl) rfl (Or.inl rfl) rfl rfl (by decide)
  exact ⟨h.1, h.2.1⟩

/-- Counterexample to **C2** as stated: the `try` block of
`executeModelRequest` spans both the immediate `fal.request` *and* the
subsequent status polling, so in this environment the immediate
invocation succeeds (returning a polling handle) yet the queued path is
still invoked, because the polling failure lands in the same `catch`. -/
theorem executeModelRequest_queue_despite_success :
    pollFailFalEnv.request "m" .null =
      .ok (.obj [("status_url", .str "u"), ("request_id", .str "r")]) ∧
    (executeModelRequest pollFailFalEnv "m" .null).subscribeCalled = true :=
  ⟨rfl, rfl⟩

/-- **C2 (amended)** — `executeModelRequest` invokes the queued path
(`subscribe`) iff the immediate invocation throws *or* the immediate
response's status polling fails; when the immediate call succeeds and
needs no polling, or its polling succeeds, the queued path is never
invoked and the caller receives the immediate (possibly polled) result;
when it does fall back, the caller receives the queued submission's
result, polled to completion when the queue response carries a
status-polling handle. -/
theorem executeModelRequest_queue_fallback (env : FalEnv) (m : String) (i : Json) :
    ((executeModelRequest env m i).subscribeCalled = true ↔
      (∃ e, env.request m i = .error e) ∨
      (∃ resp url e, env.request m i = .ok resp ∧ statusUrlOf resp = some url ∧
        runPoll (env.pollEnvOf url) = .error e)) ∧
    (∀ e, env.request m i = .error e →
      executeModelRequest env m i = execFallback env m i) ∧
    (∀ resp, env.request m i = .ok resp → statusUrlOf resp = none →
      executeModelRequest env m i = { result := .ok resp, subscribeCalled := false }) ∧
    (∀ resp url fs, env.request m i = .ok resp → statusUrlOf resp = some url →
      runPoll (env.pollEnvOf url) = .ok fs →
      executeModelRequest env m i =
        { result := .ok (normalizedResult fs resp), subscribeCalled := false }) ∧
    (∀ resp url e, env.request m i = .ok resp → statusUrlOf resp = some url →
      runPoll (env.pollEnvOf url) = .error e →
      executeModelRequest env m i = execFallback env m i) ∧
    (∀ e, env.subscribe m i = .error e →
      execFallback env m i = { result := .error e, subscribeCalled := true }) ∧
    (∀ q, env.subscribe m i = .ok q → statusUrlOf q = none →
      execFallback env m i = { result := .ok q, subscribeCalled := true }) ∧
    (∀ q url fs, env.subscribe m i = .ok q → statusUrlOf q = some url →
      runPoll (env.pollEnvOf url) = .ok fs →
      execFallback env m i =
        { result := .ok (normalizedResult fs q), subscribeCalled := true }) := by
  have hA : ∀ e, env.request m i = .error e →
      executeModelRequest env m i = execFallback env m i := by
    intro e hr; unfold executeModelRequest; rw [hr]
  have hB : ∀ resp, env.request m i = .ok resp → statusUrlOf resp = none →
      executeModelRequest env m i = { result := .ok resp, subscribeCalled := false } := by
    intro resp hr hu; unfold executeModelRequest; rw [hr]; simp only []; rw [hu]
  have hC : ∀ resp url fs, env.request m i = .ok resp → statusUrlOf resp = some url →
      runPoll (env.pollEnvOf url) = .ok fs →
      executeModelRequest env m i =
        { result := .ok (normalizedResult fs resp), subscribeCalled := false } := by
    intro resp url fs hr hu hp; unfold executeModelRequest; rw [hr]
    simp only []; rw [hu]; simp only []; rw [hp]
  have hD : ∀ resp url e, env.request m i = .ok resp → statusUrlOf resp = some url →
      runPoll (env.pollEnvOf url) = .error e →
      executeModelRequest env m i = execFallback env m i := by
    intro resp url e hr hu hp; unfold executeModelRequest; rw [hr]
    simp only []; rw [hu]; simp only []; rw [hp]
  have hFB : (execFallback env m i).subscribeCalled = true := by
    unfold execFallback
    cases hs : env.subscribe m i with
    | error e => rfl
    | ok q =>
      simp only []
      cases hu : statusUrlOf q with
      | none => rfl
      | some url =>
        simp only []
        cases hp : runPoll (env.pollEnvOf url) with
        | error e => rfl
        | ok fs => rfl
  refine ⟨⟨?_, ?_⟩, hA, hB, hC, hD, ?_, ?_, ?_⟩
  · intro h
    cases hr : env.request m i with
    | error e => exact Or.inl ⟨e, rfl⟩
    | ok resp =>
      cases hu : statusUrlOf resp with
      | none =>
        rw [hB resp hr hu] at h
        simp at h
      | some url =>
        cases hp : runPoll (env.pollEnvOf url) with
        | ok fs =>
          rw [hC resp url fs hr hu hp] at h
          simp at h
        | error e => exact Or.inr ⟨resp, url, e, rfl, hu, hp⟩
  · intro h
    rcases h with ⟨e, hr⟩ | ⟨resp, url, e, hr, hu, hp⟩
    · rw [hA e hr]; exact hFB
    · rw [hD resp url e hr hu hp]; exact hFB
  · intro e hs; unfold execFallback; rw [hs]
  · intro q hs hu; unfold execFallback; rw [hs]; simp only []; rw [hu]
  · intro q url fs hs hu hp; unfold execFallback; rw [hs]; simp only []; rw [hu]
    simp only []; rw [hp]

/-- Witness for the amended C2, instantiated at the polling-failure
provider: the queued path fires exactly because the iff's right-hand
disjunct holds. -/
theorem executeModelRequest_queue_fallback_witness :
    (executeModelRequest pollFailFalEnv "m" .null).subscribeCalled = true :=
  (executeModelRequest_queue_fallback pollFailFalEnv "m" .null).1.2
    (Or.inr ⟨.obj [("status_url", .str "u"), ("request_id", .str "r")],
      .str "u", "boom", rfl, rfl, rfl⟩)

/-- Counterexample to **C7** as stated: when the immediate response
carries no status-polling handle, `executeModelRequest` returns the
provider's response verbatim (`return response`), which need not be of
the normalized `{data, requestId}` shape. -/
theorem executeModelRequest_raw_passthrough :
    (executeModelRequest rawRespFalEnv "m" .null).result = .ok (.obj [("foo", .num 1)]) ∧
    (Json.obj [("foo", .num 1)]).getField "data" = none ∧
    (Json.obj [("foo", .num 1)]).getField "requestId" = none :=
  ⟨rfl, rfl, rfl⟩

/-- **C7 (amended)** — `executeModelRequest` normalizes its result to
`{data, requestId}` exactly on the polled paths: when the immediate (or
queued) response carries a truthy `status_url` and its polling succeeds,
the result is the normalized record built from the final status's
`output` and the response's `request_id` (a record that always has both
fields).  When no polling handle is present, the provider's response
object is passed through verbatim, whatever its shape. -/
theorem executeModelRequest_normalizes_polled (env : FalEnv) (m : String) (i : Json) :
    (∀ resp url fs, env.request m i = .ok resp → statusUrlOf resp = some url →
      runPoll (env.pollEnvOf url) = .ok fs →
      (executeModelRequest env m i).result = .ok (normalizedResult fs resp)) ∧
    (∀ q url fs, env.subscribe m i = .ok q → statusUrlOf q = some url →
      runPoll (env.pollEnvOf url) = .ok fs →
      (execFallback env m i).result = .ok (normalizedResult fs q)) ∧
    (∀ resp, env.request m i = .ok resp → statusUrlOf resp = none →
      (executeModelRequest env m i).result = .ok resp) ∧
    (∀ q, env.subscribe m i = .ok q → statusUrlOf q = none →
      (execFallback env m i).result = .ok q) ∧
    (∀ fs r, ((normalizedResult fs r).getField "data").isSome = true ∧
      ((normalizedResult fs r).getField "requestId").isSome = true) := by
  refine ⟨?_, ?_, ?_, ?_, fun fs r => ⟨rfl, rfl⟩⟩
  · intro resp url fs hr hu hp
    unfold executeModelRequest
    rw [hr]; simp only []; rw [hu]; simp only []; rw [hp]
  · intro q url fs hs hu hp
    unfold execFallback
    rw [hs]; simp only []; rw [hu]; simp only []; rw [hp]
  · intro resp hr hu
    unfold executeModelRequest
    rw [hr]; simp only []; rw [hu]
  · intro q hs hu
    unfold execFallback
    rw [hs]; simp only []; rw [hu]

/-- Witness for the amended C7: a polled immediate call yields the
normalized `{data, requestId}` record. -/
theorem executeModelRequest_normalizes_polled_witness :
    (executeModelRequest normalizingFalEnv "m" .null).result =
      .ok (normalizedResult
        (.obj [("status", .str "COMPLETED"), ("output", .str "out")])
        (.obj [("status_url", .str "u"), ("request_id", .str "r")])) :=
  (executeModelRequest_normalizes_polled normalizingFalEnv "m" .null).1
    (.obj [("status_url", .str "u"), ("request_id", .str "r")])
    (.str "u")
    (.obj [("status", .str "COMPLETED"), ("output", .str "out")])
    rfl rfl rfl

/-- The "ensure at least one prompt of each type" block lives up to its
name. -/
theorem ensureNonempty_nonempty (vp : VisualPrompts) :
    1 ≤ (ensureNonempty vp).images.length ∧
    1 ≤ (ensureNonempty vp).animations.length := by
  unfold ensureNonempty
  by_cases h1 : vp.images.length = 0 <;>
    by_cases h2 : vp.animations.length = 0 <;>
      simp [h1, h2] <;> omega

/-- Counterexample to **C10** as stated: a script whose `sections` array
contains a `null` section makes `generateMediaPrompts` throw inside the
section loop (`section.visualElements` on `null`), so it returns
`ok: false` with no prompts at all. -/
theorem generateMediaPrompts_null_section_fails :
    generateMediaPrompts (some (.obj [("sections", .arr [.null])])) =
      { ok := false, mediaPrompts := none } :=
  rfl

/-- **C10 (amended)** — When the script is `null`/missing or its
`sections` is not an array, `generateMediaPrompts` succeeds with the
default prompts; and every successful result carries at least one image
prompt and one animation prompt.  (A `sections` array containing a `null`
entry, or a truthy non-array `visualElements`, instead makes the function
return `ok: false`.) -/
theorem generateMediaPrompts_defaults_and_nonempty (script : Option Json) :
    ((∀ xs, jsOptChain script "sections" ≠ some (.arr xs)) →
      generateMediaPrompts script =
        { ok := true,
          mediaPrompts := some ({
            visualPrompts := ensureNonempty defaultNoSectionsPrompts,
            craftGuidelines := craftGuidelinesOf script }) }) ∧
    (∀ mp, generateMediaPrompts script = { ok := true, mediaPrompts := some mp } →
      1 ≤ mp.visualPrompts.images.length ∧
      1 ≤ mp.visualPrompts.animations.length) := by
  constructor
  · intro h
    unfold generateMediaPrompts mediaPromptsCore
    cases hs : jsOptChain script "sections" with
    | none => rfl
    | some j =>
      cases j with
      | arr xs => exact absurd hs (h xs)
      | null => rfl
      | bool b => rfl
      | num n => rfl
      | str s => rfl
      | obj fs => rfl
  · intro mp hmp
    unfold generateMediaPrompts at hmp
    cases hcore : mediaPromptsCore script with
    | error e => rw [hcore] at hmp; simp at hmp
    | ok mp2 =>
      rw [hcore] at hmp
      have hmp2 : mp2 = mp := by
        have := hmp
        simp only [MPOut.mk.injEq, Option.some.injEq] at this
        exact this.2
      subst hmp2
      unfold mediaPromptsCore at hcore
      revert hcore
      cases jsOptChain script "sections" with
      | none => intro hcore; cases hcore; exact ensureNonempty_nonempty _
      | some j =>
        cases j with
        | arr xs =>
          intro hcore
          have hcore2 : mediaPromptsOfSections script xs = Except.ok mp2 := hcore
          unfold mediaPromptsOfSections at hcore2
          cases hf : List.foldlM processSection { images := [], animations := [] } xs with
          | error e => rw [hf] at hcore2; simp at hcore2
          | ok vp =>
            rw [hf] at hcore2
            have h2 : (Except.ok ⟨ensureNonempty vp, craftGuidelinesOf script⟩ :
                Except Unit MediaPrompts) = Except.ok mp2 := hcore2
            cases h2
            exact ensureNonempty_nonempty vp
        | null => intro hcore; cases hcore; exact ensureNonempty_nonempty _
        | bool b => intro hcore; cases hcore; exact ensureNonempty_nonempty _
        | num n => intro hcore; cases hcore; exact ensureNonempty_nonempty _
        | str s => intro hcore; cases hcore; exact ensureNonempty_nonempty _
        | obj fs => intro hcore; cases hcore; exact ensureNonempty_nonempty _

/-- Witness for the amended C10 at a `null` script. -/
theorem generateMediaPrompts_defaults_witness :
    generateMediaPrompts (some Json.null) =
      { ok := true,
        mediaPrompts := some ({
          visualPrompts := ensureNonempty defaultNoSectionsPrompts,
          craftGuidelines := craftGuidelinesOf (some Json.null) }) } :=
  (generateMediaPrompts_defaults_and_nonempty (some Json.null)).1
    (fun _ h => by cases h)

/-- The image loop calls `generateImage` once per prompt it is given. -/
theorem imageLoop_count (deps : ScriptDeps) (vs cp : Json) :
    ∀ l, (imageLoop deps vs cp l).2 = l.length := by
  intro l
  induction l with
  | nil => rfl
  | cons p ps ih =>
    unfold imageLoop
    simp only []
    split
    · split
      · simp [ih]
      · simp [ih]
    · simp [ih]

/-- The image loop pushes at most one asset per prompt. -/
theorem imageLoop_assets_le (deps : ScriptDeps) (vs cp : Json) :
    ∀ l, (imageLoop deps vs cp l).1.length ≤ l.length := by
  intro l
  induction l with
  | nil => exact Nat.le_refl 0
  | cons p ps ih =>
    unfold imageLoop
    simp only []
    split
    · split
      · simpa using Nat.succ_le_succ ih
      · simp; omega
    · simp; omega

/-- The animation loop calls `generateVideo` once per prompt it is
given. -/
theorem animationLoop_count (deps : ScriptDeps) (asty : Json) :
    ∀ l, (animationLoop deps asty l).2 = l.length := by
  intro l
  induction l with
  | nil => rfl
  | cons p ps ih =>
    unfold animationLoop
    simp only []
    split
    · split
      · simp [ih]
      · simp [ih]
    · simp [ih]

/-- The animation loop pushes at most one asset per prompt. -/
theorem animationLoop_assets_le (deps : ScriptDeps) (asty : Json) :
    ∀ l, (animationLoop deps asty l).1.length ≤ l.length := by
  intro l
  induction l with
  | nil => exact Nat.le_refl 0
  | cons p ps ih =>
    unfold animationLoop
    simp only []
    split
    · split
      · simpa using Nat.succ_le_succ ih
      · simp; omega
    · simp; omega

/-- Counterexample to the metadata half of **C8**: a full pipeline run
whose script yields five image prompts does cap generation at 2 images
and 1 animation, but its response metadata carries no `totalRequested`
or `totalGenerated` count — only `totalAssets` (the saved count) and the
asset types. -/
theorem script_handler_no_requested_count :
    ((generateMediaPrompts (some fiveImageScript)).mediaPrompts.map
      (fun mp => mp.visualPrompts.images.length)) = some 5 ∧
    (postScript okScriptDeps acmeStore (some (.str "Acme")) (some (.str "goals"))
      (some (.str "aud")) none none).imageCalls = 2 ∧
    (postScript okScriptDeps acmeStore (some (.str "Acme")) (some (.str "goals"))
      (some (.str "aud")) none none).videoCalls = 1 ∧
    ((((postScript okScriptDeps acmeStore (some (.str "Acme")) (some (.str "goals"))
      (some (.str "aud")) none none).body.getField "metadata").getD .null).getField
        "totalRequested") = none ∧
    ((((postScript okScriptDeps acmeStore (some (.str "Acme")) (some (.str "goals"))
      (some (.str "aud")) none none).body.getField "metadata").getD .null).getField
        "totalGenerated") = none ∧
    ((((postScript okScriptDeps acmeStore (some (.str "Acme")) (some (.str "goals"))
      (some (.str "aud")) none none).body.getField "metadata").getD .null).getField
        "totalAssets") = some (.num 3) :=
  ⟨rfl, rfl, rfl, rfl, rfl, rfl⟩

/-- **C8 (amended)** — Per pipeline run the handler invokes image
generation exactly `min(#imagePrompts, 2)` times and animation generation
exactly `min(#animationPrompts, 1)` times (the first prompts, via
`slice`); prompts beyond the caps and per-item failures are skipped
without raising an error, so at most that many assets are produced; and
the response metadata reports `totalAssets` — the number of
generated-and-saved assets — together with the asset types, not the
requested/generated counts the spec describes. -/
theorem assetsPhase_caps_and_metadata (deps : ScriptDeps) (mp : MediaPrompts) :
    (assetsPhase deps mp).2.1 = min mp.visualPrompts.images.length 2 ∧
    (assetsPhase deps mp).2.2 = min mp.visualPrompts.animations.length 1 ∧
    (assetsPhase deps mp).1.length ≤
      min mp.visualPrompts.images.length 2 +
      min mp.visualPrompts.animations.length 1 ∧
    (∀ model now saved,
      (scriptResponseMetadata model now saved).getField "totalAssets" =
        some (.num saved.length) ∧
      (scriptResponseMetadata model now saved).getField "totalRequested" = none ∧
      (scriptResponseMetadata model now saved).getField "totalGenerated" = none) := by
  refine ⟨?_, ?_, ?_, fun model now saved => ⟨rfl, rfl, rfl⟩⟩
  · unfold assetsPhase
    simp only []
    by_cases h : mp.visualPrompts.images.length > 0
    · rw [if_pos h, imageLoop_count, List.length_take, Nat.min_comm]
    · rw [if_neg h]
      simp at h
      simp [h]
  · unfold assetsPhase
    simp only []
    by_cases h : mp.visualPrompts.animations.length > 0
    · rw [if_pos h, animationLoop_count, List.length_take, Nat.min_comm]
    · rw [if_neg h]
      simp at h
      simp [h]
  · unfold assetsPhase
    simp only [List.length_append]
    by_cases hI : mp.visualPrompts.images.length > 0 <;>
      by_cases hA : mp.visualPrompts.animations.length > 0 <;>
        simp [hI, hA]
    · have h1 := imageLoop_assets_le deps
        ((mp.craftGuidelines.getField "visualStyle").getD .null)
        ((mp.craftGuidelines.getField "colorPalette").getD .null)
        (mp.visualPrompts.images.take 2)
      have h2 := animationLoop_assets_le deps
        ((mp.craftGuidelines.getField "animationStyle").getD .null)
        (mp.visualPrompts.animations.take 1)
      rw [List.length_take] at h1 h2
      omega
    · have h1 := imageLoop_assets_le deps
        ((mp.craftGuidelines.getField "visualStyle").getD .null)
        ((mp.craftGuidelines.getField "colorPalette").getD .null)
        (mp.visualPrompts.images.take 2)
      rw [List.length_take] at h1
      simp at hA
      omega
    · have h2 := animationLoop_assets_le deps
        ((mp.craftGuidelines.getField "animationStyle").getD .null)
        (mp.visualPrompts.animations.take 1)
      rw [List.length_take] at h2
      simp at hI
      omega

/-- `Map` keys produced from brand names compare equal to themselves. -/
theorem keyEq_str_refl (nm : String) :
    keyEq (some (.str nm)) (some (.str nm)) = true := by
  simp [keyEq, jsonEq]

/-- `researchStore.get` after `researchStore.set` with the same key. -/
theorem storeGet_storeSet_self (st : Store) (k : Option Json) (v : StoredResearch)
    (hk : keyEq k k = true) :
    storeGet (storeSet st k v) k = some v := by
  induction st with
  | nil => unfold storeSet storeGet; rw [hk]; rfl
  | cons e rest ih =>
    unfold storeSet
    by_cases he : keyEq e.1 k = true
    · rw [if_pos he]
      unfold storeGet
      rw [hk]
      rfl
    · rw [if_neg he]
      unfold storeGet
      rw [if_neg he]
      exact ih

/-- Once the research gate passes, the handler always reaches the
`generateScript` call, whatever happens downstream. -/
theorem postScript_calls_genScript (deps : ScriptDeps) (st : Store)
    (sid cg ta cd mdl : Option Json) (r : StoredResearch)
    (h1 : Json.jsTruthyO sid = true) (h2 : Json.jsTruthyO cg = true)
    (h3 : Json.jsTruthyO ta = true)
    (hget : storeGet st sid = some r) :
    (postScript deps st sid cg ta cd mdl).calledGenScript = true := by
  unfold postScript
  rw [h1, h2, h3, if_neg (by simp), hget]
  simp only []
  cases hg : deps.genScript r.brandInfo r.research (cg.getD .null) (ta.getD .null)
      cd (mdl.getD (.str "gemini-2.0-flash")) with
  | error e => rfl
  | ok script =>
    simp only []
    by_cases ht : script.jsTruthy = true
    · simp only [ht]
      cases hmp : generateMediaPrompts (some script) with
      | mk ok mps =>
        cases ok with
        | false => cases mps <;> rfl
        | true =>
          cases mps with
          | none => rfl
          | some mp =>
            simp only []
            cases hsv : deps.saveAssets (assetsPhase deps mp).1 with
            | error e => rfl
            | ok saved => rfl
    · simp only [Bool.not_eq_true] at ht
      simp only [ht]
      rfl

/-- The research handler on a structured brand object with a string
`name` answers 200 and stores `{research, brandInfo}` under that name. -/
theorem postResearch_stores (jparse : String → Option Json) (gemTxt : String)
    (st : Store) (fs : List (String × Json)) (nm : String) (mdl : Json)
    (hname : Json.lookupField fs "name" = some (.str nm)) :
    (postResearch jparse (.ok gemTxt) st (some (.obj fs)) mdl).status = 200 ∧
    (postResearch jparse (.ok gemTxt) st (some (.obj fs)) mdl).store =
      storeSet st (some (.str nm))
        { research := parseResearch jparse gemTxt, brandInfo := .obj fs } := by
  unfold postResearch
  simp only []
  rw [show researchKeyE (.obj fs) = .ok (Json.lookupField fs "name") from rfl, hname]
  simp only []
  exact ⟨rfl, rfl⟩

/-- **C9** — Script generation succeeds only for a session key with
stored research: a request for an unknown key is answered 400
(`No research found`) without ever invoking the text model, while
running research for a structured brand object stores the session under
the brand's `name`, so that a later script request with that key passes
the gate and reaches `generateScript`.  The key is a pure function of
the brand identity (`researchKeyE`), hence deterministic. -/
theorem script_requires_stored_research (jparse : String → Option Json) :
    (∀ deps st sid cg ta cd mdl,
      Json.jsTruthyO sid = true → Json.jsTruthyO cg = true →
      Json.jsTruthyO ta = true → storeGet st sid = none →
      (postScript deps st sid cg ta cd mdl).status = 400 ∧
      (postScript deps st sid cg ta cd mdl).calledGenScript = false ∧
      (postScript deps st sid cg ta cd mdl).body.getField "error" =
        some (.str "No research found")) ∧
    (∀ gemTxt st (fs : List (String × Json)) (nm : String) mdl,
      Json.lookupField fs "name" = some (.str nm) →
      (postResearch jparse (.ok gemTxt) st (some (.obj fs)) mdl).status = 200 ∧
      storeGet (postResearch jparse (.ok gemTxt) st (some (.obj fs)) mdl).store
          (some (.str nm)) =
        some { research := parseResearch jparse gemTxt, brandInfo := .obj fs } ∧
      (∀ deps cg ta cd m2, nm ≠ "" →
        Json.jsTruthyO cg = true → Json.jsTruthyO ta = true →
        (postScript deps
          (postResearch jparse (.ok gemTxt) st (some (.obj fs)) mdl).store
          (some (.str nm)) cg ta cd m2).calledGenScript = true)) := by
  constructor
  · intro deps st sid cg ta cd mdl h1 h2 h3 hget
    unfold postScript
    rw [h1, h2, h3, if_neg (by simp), hget]
    exact ⟨rfl, rfl, rfl⟩
  · intro gemTxt st fs nm mdl hname
    have hps := postResearch_stores jparse gemTxt st fs nm mdl hname
    refine ⟨hps.1, ?_, ?_⟩
    · rw [hps.2]
      exact storeGet_storeSet_self st _ _ (keyEq_str_refl nm)
    · intro deps cg ta cd m2 hnm h2 h3
      apply postScript_calls_genScript deps _ _ cg ta cd m2
        { research := parseResearch jparse gemTxt, brandInfo := .obj fs }
        ?_ h2 h3 ?_
      · simp [Json.jsTruthyO, Json.jsTruthy]
        exact hnm
      · rw [hps.2]
        exact storeGet_storeSet_self st _ _ (keyEq_str_refl nm)

/-- Witness for C9: an unknown key is refused without a model call; after
research for `Acme`, the script request for `Acme` reaches the model. -/
theorem script_requires_stored_research_witness :
    (postScript okScriptDeps [] (some (.str "Ghost")) (some (.str "g"))
      (some (.str "a")) none none).calledGenScript = false ∧
    (postScript okScriptDeps
      (postResearch (fun _ => none) (.ok "text") []
        (some (.obj [("name", .str "Acme")])) (.str "gemini-2.0-flash")).store
      (some (.str "Acme")) (some (.str "g")) (some (.str "a")) none
      none).calledGenScript = true := by
  constructor
  · exact ((script_requires_stored_research (fun _ => none)).1 okScriptDeps []
      (some (.str "Ghost")) (some (.str "g")) (some (.str "a")) none none
      rfl rfl rfl rfl).2.1
  · exact ((script_requires_stored_research (fun _ => none)).2 "text" []
      [("name", .str "Acme")] "Acme" (.str "gemini-2.0-flash") rfl).2.2
      okScriptDeps (some (.str "g")) (some (.str "a")) none none
      (by decide) rfl rfl
